import Mathlib

/-!
Shallow embedding of the quiz-generator backend core
(`src/backend/app/services/gemini_service.py`,
`src/backend/app/services/quiz_service.py`,
`src/backend/app/routers/quiz.py`, `src/backend/app/config.py`,
`src/backend/app/models/quiz.py`) together with theorems checking the
specification's claims about it.

Python strings are modelled as Lean `String` values (lists of characters
where character-level reasoning is needed); machine-level float arithmetic
for the score percentage is modelled by exact rational arithmetic with
round-half-to-even at two decimal places, the idealisation the spec itself
states.  Fallible operations return `Option`/`Except` values instead of
raising exceptions; the external model transport is an explicit
`Except`-valued input of the gateway function.
-/

/-! ## Python string primitives -/

/-- Python `str.strip()` on the leading side: drop leading whitespace. -/
def pyDropLead (l : List Char) : List Char :=
  l.dropWhile Char.isWhitespace

/-- Drop trailing whitespace characters. -/
def pyDropTrail (l : List Char) : List Char :=
  (l.reverse.dropWhile Char.isWhitespace).reverse

/-- Python `str.strip()`: drop whitespace at both ends. -/
def pyStrip (l : List Char) : List Char :=
  pyDropTrail (pyDropLead l)

/-- Python `hay.startswith(pre)`. -/
def startsWithL (s pre : List Char) : Bool :=
  s.take pre.length == pre

/-- Python `hay.endswith(suf)`. -/
def endsWithL (s suf : List Char) : Bool :=
  s.drop (s.length - suf.length) == suf

/-- Whether `needle` occurs in `hay` at position `i`. -/
def matchAtL (hay needle : List Char) (i : Nat) : Bool :=
  (hay.drop i).take needle.length == needle

/-- Search upward from position `i` with explicit fuel; first match wins.
Models Python `str.find` (which returns the smallest matching index). -/
def findFromL (hay needle : List Char) : Nat → Nat → Option Nat
  | _, 0 => none
  | i, fuel + 1 =>
    if matchAtL hay needle i then some i else findFromL hay needle (i + 1) fuel

/-- Python `hay.find(needle)` (as `Option`; `none` models the `-1` case). -/
def findStrL (hay needle : List Char) : Option Nat :=
  findFromL hay needle 0 (hay.length + 1)

/-- Search downward from position `i`; models Python `str.rfind` (largest
matching index, `none` for `-1`). -/
def rfindFromL (hay needle : List Char) : Nat → Option Nat
  | 0 => if matchAtL hay needle 0 then some 0 else none
  | i + 1 =>
    if matchAtL hay needle (i + 1) then some (i + 1) else rfindFromL hay needle i

/-- Python `hay.rfind(needle)`. -/
def rfindStrL (hay needle : List Char) : Option Nat :=
  rfindFromL hay needle hay.length

/-- Python slice `s[start:stop]` for non-negative bounds. -/
def pySlice (l : List Char) (start stop : Nat) : List Char :=
  (l.take stop).drop start

/-- Python `needle in hay` substring test. -/
def strContainsL (hay needle : List Char) : Bool :=
  (List.range (hay.length + 1)).any fun i => matchAtL hay needle i

/-- Python `needle in hay` on strings. -/
def strContains (hay needle : String) : Bool :=
  strContainsL hay.toList needle.toList

/-! ## Rounding

Python's `round(x, 2)` rounds half to even.  The spec states the percentage
formula over exact arithmetic; we model it with rationals. -/

/-- Round a rational to the nearest integer, halves to the even neighbour
(Python's `round` on the exact value). -/
def roundHalfEven (q : ℚ) : ℤ :=
  if q - Rat.floor q = 1 / 2 then
    (if Rat.floor q % 2 = 0 then Rat.floor q else Rat.floor q + 1)
  else Rat.floor (q + 1 / 2)

/-- Python `round(q, 2)`: round to two decimal places, halves to even. -/
def round2 (q : ℚ) : ℚ :=
  (roundHalfEven (q * 100) : ℚ) / 100

/-! ## Configuration (`app/config.py`) -/

/-- Defaults from `Settings` in `app/config.py`. -/
structure Settings where
  default_questions_per_quiz : Nat := 5
  default_options_per_question : Nat := 4
  max_topic_length : Nat := 100

/-- The global settings instance with its default values. -/
def settings : Settings := {}

/-! ## Persistent entities (`app/models/quiz.py`)

Integer primary keys are assigned by the database at flush time; the
assembler leaves them at `0`, the persisted values carry real ids. -/

/-- `QuestionOption` ORM model. -/
structure QuestionOption where
  id : Nat
  option_text : String
  option_letter : String
  is_correct : Bool
deriving Repr, DecidableEq

/-- `Question` ORM model with its owned options. -/
structure Question where
  id : Nat
  question_text : String
  question_order : Nat
  options : List QuestionOption
deriving Repr, DecidableEq

/-- `Quiz` ORM model with its owned questions. -/
structure Quiz where
  id : Nat
  topic : String
  questions : List Question
deriving Repr, DecidableEq

/-- `QuizAttempt` ORM model. -/
structure QuizAttempt where
  id : Nat
  quiz_id : Nat
  score : Nat
  total_questions : Nat
deriving Repr, DecidableEq

/-- `UserResponse` ORM model. -/
structure UserResponse where
  attempt_id : Nat
  question_id : Nat
  selected_option_id : Nat
  is_correct : Bool
deriving Repr, DecidableEq

/-! ## Schemas (`app/schemas/quiz.py`)

The schemas module itself is not among the provided sources; these record
shapes are modelled from the spec (§3 QuizCandidate, §4.4, §6) and from how
the service and router code reads the fields. -/

/-- Modelled from the spec: a transient question candidate from the model —
question text, a label→text options mapping (insertion-ordered, unique keys
once it has passed through JSON object construction), the correct label, and
an optional explanation. -/
structure GeneratedQuizQuestion where
  question : String
  options : List (String × String)
  correct_answer : String
  explanation : Option String := none
deriving Repr, DecidableEq

/-- Modelled from the spec: the transient quiz candidate
(`GeminiQuizResponse`): topic plus ordered question candidates. -/
structure GeminiQuizResponse where
  topic : String
  questions : List GeneratedQuizQuestion
deriving Repr, DecidableEq

/-- Modelled from the spec: one submitted answer — a question reference and
a selected-option reference. -/
structure UserAnswerSubmission where
  question_id : Nat
  selected_option_id : Nat
deriving Repr, DecidableEq

/-- Modelled from the spec: a quiz submission — quiz reference plus the
submitted answers in submission order. -/
structure QuizSubmission where
  quiz_id : Nat
  answers : List UserAnswerSubmission
deriving Repr, DecidableEq

/-- One per-question outcome record of a scored submission, with the fields
`submit_quiz_answers` collects. -/
structure CorrectAnswerInfo where
  question_id : Nat
  question_text : String
  correct_option : String
  correct_text : String
  user_selected : String
  user_selected_text : String
  is_correct : Bool
deriving Repr, DecidableEq

/-- Modelled from the spec: the scoring result summary (`QuizResult`). -/
structure QuizResult where
  score : Nat
  total_questions : Nat
  percentage : ℚ
  correct_answers : List CorrectAnswerInfo
deriving Repr, DecidableEq

/-- Modelled from the spec: one mismatch sent to the feedback endpoint —
question id/text, the user's choice (label and text) and the correct choice
(label and text), as read by `get_quiz_feedback` and
`explain_incorrect_answers`. -/
structure FeedbackRequestItem where
  question_id : Nat
  question_text : String
  user_selected : String
  user_selected_text : String
  correct_option : String
  correct_text : String
deriving Repr, DecidableEq

/-- Modelled from the spec: the feedback request payload. -/
structure FeedbackRequest where
  topic : String
  items : List FeedbackRequestItem
deriving Repr, DecidableEq

/-- Modelled from the spec: one explanation in the feedback response. -/
structure FeedbackItem where
  question_id : Nat
  explanation : String
deriving Repr, DecidableEq

/-- Modelled from the spec: the feedback response payload. -/
structure FeedbackResponse where
  items : List FeedbackItem
deriving Repr, DecidableEq

/-! ## `GeminiService.validate_topic` (`app/services/gemini_service.py`) -/

/-- The hard-coded denylist in `validate_topic`. -/
def inappropriate_keywords : List String :=
  ["explicit", "nsfw", "adult", "violence"]

/-- `GeminiService.validate_topic`: non-empty after stripping, raw length at
most `settings.max_topic_length`, and no denylisted substring of the
lowercased topic. -/
def validate_topic (topic : String) : Bool :=
  if topic.isEmpty || (pyStrip topic.toList).length == 0 then false
  else if settings.max_topic_length < topic.length then false
  else inappropriate_keywords.all fun keyword =>
    !(strContains topic.toLower keyword)

/-! ## `GeminiService._validate_quiz_business_rules` -/

/-- The literal `expected_letters = \x7b"A", "B", "C", "D"\x7d` set from
`_validate_quiz_business_rules`. -/
def expected_letters : Finset String := {"A", "B", "C", "D"}

/-- The per-question checks of `_validate_quiz_business_rules`, in source
order: non-empty question text, option count, exact label set, correct
answer among the labels, non-empty option texts. -/
def validQuestionRules (question : GeneratedQuizQuestion) : Bool :=
  if (pyStrip question.question.toList).length == 0 then false
  else if question.options.length != settings.default_options_per_question then false
  else if !(decide ((question.options.map Prod.fst).toFinset = expected_letters)) then false
  else if !(question.options.any fun kv => kv.1 == question.correct_answer) then false
  else question.options.all fun kv => !((pyStrip kv.2.toList).length == 0)

/-- `GeminiService._validate_quiz_business_rules`: question count must equal
`expected_questions` and every question must pass `validQuestionRules`. -/
def _validate_quiz_business_rules
    (quiz_response : GeminiQuizResponse) (expected_questions : Nat) : Bool :=
  if quiz_response.questions.length != expected_questions then false
  else quiz_response.questions.all validQuestionRules

/-! ## JSON (`json.loads`)

A value model and recursive-descent parser for the JSON fragment the
service exchanges (objects, arrays, strings with the common escapes,
integer numbers, booleans, null).  Objects collapse duplicate keys the way
Python `dict` construction does (first position, last value). -/

/-- JSON values. -/
inductive Json where
  | null : Json
  | bool (b : Bool) : Json
  | num (n : Int) : Json
  | str (s : String) : Json
  | arr (elems : List Json) : Json
  | obj (members : List (String × Json)) : Json
deriving Repr, BEq

/-- Insert a key/value pair into an association list with Python `dict`
update semantics: an existing key keeps its position but takes the new
value. -/
def pyDictInsert (acc : List (String × Json)) (kv : String × Json) :
    List (String × Json) :=
  if acc.any fun p => p.1 == kv.1 then
    acc.map fun p => if p.1 == kv.1 then (p.1, kv.2) else p
  else acc ++ [kv]

/-- Build a Python-`dict`-like association list from parsed members. -/
def pyDict (kvs : List (String × Json)) : List (String × Json) :=
  kvs.foldl pyDictInsert []

/-- Python `dict` lookup on such an association list. -/
def pyDictGet (kvs : List (String × Json)) (key : String) : Option Json :=
  (kvs.find? fun p => p.1 == key).map Prod.snd

/-- Decode one string-escape character. -/
def jsonEscapeChar (c : Char) : Option Char :=
  if c == 'n' then some '\n'
  else if c == 't' then some '\t'
  else if c == 'r' then some '\r'
  else if c == 'b' then some (Char.ofNat 8)
  else if c == 'f' then some (Char.ofNat 12)
  else if c == '"' then some '"'
  else if c == '\\' then some '\\'
  else if c == '/' then some '/'
  else none

/-- Parse the body of a JSON string after the opening quote; returns the
content and the rest of the input after the closing quote. -/
def parseStringBody : List Char → Option (List Char × List Char)
  | [] => none
  | '"' :: rest => some ([], rest)
  | '\\' :: c :: rest => do
    let e ← jsonEscapeChar c
    let (s, r) ← parseStringBody rest
    pure (e :: s, r)
  | '\\' :: [] => none
  | c :: rest => do
    let (s, r) ← parseStringBody rest
    pure (c :: s, r)

/-- Skip JSON whitespace. -/
def skipWs (l : List Char) : List Char :=
  l.dropWhile Char.isWhitespace

/-- Parse a run of decimal digits as a number. -/
def parseDigits (l : List Char) : Option (Nat × List Char) :=
  let digits := l.takeWhile Char.isDigit
  if digits.isEmpty then none
  else some (digits.foldl (fun acc c => acc * 10 + (c.toNat - 48)) 0,
             l.dropWhile Char.isDigit)

mutual

/-- Parse one JSON value; `fuel` bounds the nesting/step count. -/
def parseValue : Nat → List Char → Option (Json × List Char)
  | 0, _ => none
  | fuel + 1, input =>
    match skipWs input with
    | 'n' :: 'u' :: 'l' :: 'l' :: rest => some (.null, rest)
    | 't' :: 'r' :: 'u' :: 'e' :: rest => some (.bool true, rest)
    | 'f' :: 'a' :: 'l' :: 's' :: 'e' :: rest => some (.bool false, rest)
    | '"' :: rest => do
      let (s, r) ← parseStringBody rest
      pure (.str ⟨s⟩, r)
    | '[' :: rest =>
      (match skipWs rest with
       | ']' :: r => some (.arr [], r)
       | _ => parseArrItems fuel rest [])
    | '{' :: rest =>
      (match skipWs rest with
       | '}' :: r => some (.obj [], r)
       | _ => parseObjItems fuel rest [])
    | '-' :: rest => do
      let (n, r) ← parseDigits rest
      pure (.num (-(n : Int)), r)
    | c :: rest =>
      if c.isDigit then do
        let (n, r) ← parseDigits (c :: rest)
        pure (.num (n : Int), r)
      else none
    | [] => none

/-- Parse the remaining items of a JSON array (after `[` or a `,`). -/
def parseArrItems : Nat → List Char → List Json → Option (Json × List Char)
  | 0, _, _ => none
  | fuel + 1, input, acc => do
    let (v, rest) ← parseValue fuel input
    match skipWs rest with
    | ',' :: r => parseArrItems fuel r (acc ++ [v])
    | ']' :: r => some (.arr (acc ++ [v]), r)
    | _ => none

/-- Parse the remaining members of a JSON object (after `\x7b` or a `,`). -/
def parseObjItems : Nat → List Char → List (String × Json) →
    Option (Json × List Char)
  | 0, _, _ => none
  | fuel + 1, input, acc =>
    match skipWs input with
    | '"' :: rest => do
      let (k, r1) ← parseStringBody rest
      match skipWs r1 with
      | ':' :: r2 => do
        let (v, r3) ← parseValue fuel r2
        match skipWs r3 with
        | ',' :: r4 => parseObjItems fuel r4 (acc ++ [(⟨k⟩, v)])
        | '}' :: r4 => some (.obj (pyDict (acc ++ [(⟨k⟩, v)])), r4)
        | _ => none
      | _ => none
    | _ => none

end

/-- `json.loads`: parse a whole character stream as one JSON document; any
leftover non-whitespace input is an error. -/
def jsonLoads (l : List Char) : Option Json :=
  match parseValue (l.length + 1) l with
  | some (v, rest) => if (skipWs rest).isEmpty then some v else none
  | none => none

/-! ## Schema deserialisation (pydantic model construction)

Modelled from the spec: the pydantic validation step
`GeminiQuizResponse(**quiz_data)` — the JSON must be an object with a string
`topic` and an array `questions` of objects, each with string `question`,
an object `options` of string values, a string `correct_answer`, and an
optional string `explanation`; anything else is a validation Failure. -/

/-- Read a JSON value as a string. -/
def jsonAsStr : Json → Option String
  | .str s => some s
  | _ => none

/-- Modelled from the spec: construct one `GeneratedQuizQuestion` from JSON,
failing on any shape mismatch. -/
def questionOfJson : Json → Option GeneratedQuizQuestion
  | .obj kvs => do
    let question ← pyDictGet kvs "question" >>= jsonAsStr
    let optionsJson ← pyDictGet kvs "options"
    let options ←
      match optionsJson with
      | .obj okvs => okvs.mapM fun kv => do
          let t ← jsonAsStr kv.2
          pure (kv.1, t)
      | _ => none
    let correct_answer ← pyDictGet kvs "correct_answer" >>= jsonAsStr
    let explanation :=
      match pyDictGet kvs "explanation" with
      | some (.str e) => some e
      | _ => none
    pure { question, options, correct_answer, explanation }
  | _ => none

/-- Modelled from the spec: construct the `GeminiQuizResponse` candidate
from JSON, failing on any shape mismatch. -/
def geminiOfJson : Json → Option GeminiQuizResponse
  | .obj kvs => do
    let topic ← pyDictGet kvs "topic" >>= jsonAsStr
    let questionsJson ← pyDictGet kvs "questions"
    let questions ←
      match questionsJson with
      | .arr qs => qs.mapM questionOfJson
      | _ => none
    pure { topic, questions }
  | _ => none

/-! ## `GeminiService.generate_quiz`: fence stripping and the gateway -/

/-- The markdown-fence extraction of `generate_quiz`: strip the response,
and if it is wrapped in a ```json or generic ``` fenced block, slice out the
inside (Python `find`/`rfind` index arithmetic) and strip it again. -/
def extractJsonText (text : String) : List Char :=
  let response_text := pyStrip text.toList
  if startsWithL response_text ("```json").toList &&
      endsWithL response_text ("```").toList then
    let json_start := (findStrL response_text ("```json").toList).getD 0 + 7
    let json_end := (rfindStrL response_text ("```").toList).getD 0
    pyStrip (pySlice response_text json_start json_end)
  else if startsWithL response_text ("```").toList &&
      endsWithL response_text ("```").toList then
    let json_start := (findStrL response_text ("```").toList).getD 0 + 3
    let json_end := (rfindStrL response_text ("```").toList).getD 0
    pyStrip (pySlice response_text json_start json_end)
  else response_text

/-- The outcome of the transport call `model.generate_content_async`: either
a raised error or a response text (`\"\"` models an empty/absent `.text`). -/
def TransportOutcome := Except String String

/-- `GeminiService.generate_quiz` given the transport outcome: converts
every fault (transport error, empty text, JSON decode error, schema
mismatch, business-rule failure) into `none`; the topic argument only
enters the prompt, never the result shape. -/
def generate_quiz (_topic : String) (transport : TransportOutcome)
    (num_questions : Nat) : Option GeminiQuizResponse :=
  match transport with
  | .error _ => none
  | .ok text =>
    if text.isEmpty then none
    else
      match jsonLoads (extractJsonText text) with
      | none => none
      | some quiz_data =>
        match geminiOfJson quiz_data with
        | none => none
        | some quiz_response =>
          if !(_validate_quiz_business_rules quiz_response num_questions) then none
          else some quiz_response

/-! ## `QuizService._create_quiz_from_gemini_response` (the assembler) -/

/-- Build the `QuestionOption` rows of one question: one option per
candidate label/text pair, `is_correct` iff the label equals the
candidate's `correct_answer`.  Ids are assigned later, at persistence. -/
def buildOptions (q_data : GeneratedQuizQuestion) : List QuestionOption :=
  q_data.options.map fun kv =>
    { id := 0
      option_text := kv.2
      option_letter := kv.1
      is_correct := kv.1 == q_data.correct_answer }

/-- Build the `Question` rows from index `idx` on; mirrors the
`enumerate(gemini_response.questions)` loop assigning `question_order =
idx + 1`. -/
def buildQuestions (idx : Nat) : List GeneratedQuizQuestion → List Question
  | [] => []
  | q_data :: rest =>
    { id := 0
      question_text := q_data.question
      question_order := idx + 1
      options := buildOptions q_data } :: buildQuestions (idx + 1) rest

/-- `QuizService._create_quiz_from_gemini_response`: convert an accepted
candidate into the persistable `Quiz` aggregate. -/
def _create_quiz_from_gemini_response (gemini_response : GeminiQuizResponse) :
    Quiz :=
  { id := 0
    topic := gemini_response.topic
    questions := buildQuestions 0 gemini_response.questions }

/-! ## `QuizService.submit_quiz_answers` (the scoring engine)

The database session is modelled by the committed rows relevant to scoring;
a submission either commits its new attempt and responses as one batch or
leaves the state untouched.  The `commit_fails` flag injects the
persistence failure the `except` branch handles. -/

/-- The committed scoring-related rows of the database. -/
structure DbState where
  attempts : List QuizAttempt
  responses : List UserResponse
deriving Repr, DecidableEq

/-- The running state of the answer loop: the correct-count, the pending
`UserResponse` rows, and the collected result lines. -/
structure ScoreState where
  correct_count : Nat
  responses : List UserResponse
  correct_answers : List CorrectAnswerInfo
deriving Repr, DecidableEq

/-- One iteration of the answer loop in `submit_quiz_answers`: look up the
question in the quiz and the selected option in the question, skipping the
answer (`continue`) if either lookup fails; otherwise count correctness,
record a `UserResponse` and a result line. -/
def processAnswer (quiz : Quiz) (attempt_id : Nat) (st : ScoreState)
    (answer : UserAnswerSubmission) : ScoreState :=
  match quiz.questions.find? fun q => q.id == answer.question_id with
  | none => st
  | some question =>
    match question.options.find? fun opt => opt.id == answer.selected_option_id with
    | none => st
    | some selected_option =>
      let is_correct := selected_option.is_correct
      let correct_option := question.options.find? fun opt => opt.is_correct
      { correct_count := st.correct_count + (if is_correct then 1 else 0)
        responses := st.responses ++
          [{ attempt_id
             question_id := question.id
             selected_option_id := selected_option.id
             is_correct }]
        correct_answers := st.correct_answers ++
          [{ question_id := question.id
             question_text := question.question_text
             correct_option := (correct_option.map (·.option_letter)).getD "N/A"
             correct_text := (correct_option.map (·.option_text)).getD "N/A"
             user_selected := selected_option.option_letter
             user_selected_text := selected_option.option_text
             is_correct }]
  }

/-- `QuizService.submit_quiz_answers`: look up the quiz, create the attempt
(score initialised to 0, finalised to the correct-count before commit),
process every answer in submission order, and either commit attempt and
responses together or roll everything back (`commit_fails`) and report
`none`.  The attempt id models the value obtained from `flush`. -/
def submit_quiz_answers (quizzes : List Quiz) (db : DbState)
    (commit_fails : Bool) (submission : QuizSubmission) :
    DbState × Option QuizResult :=
  match quizzes.find? fun q => q.id == submission.quiz_id with
  | none => (db, none)
  | some quiz =>
    let attempt_id := db.attempts.length + 1
    let st := submission.answers.foldl (processAnswer quiz attempt_id)
      { correct_count := 0, responses := [], correct_answers := [] }
    let attempt : QuizAttempt :=
      { id := attempt_id
        quiz_id := quiz.id
        total_questions := quiz.questions.length
        score := st.correct_count }
    if commit_fails then (db, none)
    else
      let percentage : ℚ :=
        if !quiz.questions.isEmpty then
          ((st.correct_count : ℚ) / (quiz.questions.length : ℚ)) * 100
        else 0
      ({ attempts := db.attempts ++ [attempt]
         responses := db.responses ++ st.responses },
       some { score := st.correct_count
              total_questions := quiz.questions.length
              percentage := round2 percentage
              correct_answers := st.correct_answers })

/-! ## `get_quiz_feedback` (`app/routers/quiz.py`) -/

/-- The deterministic fallback line built in `get_quiz_feedback` for one
mismatch. -/
def fallbackExplanation (i : FeedbackRequestItem) : String :=
  "You chose " ++ i.user_selected ++ ". " ++ i.user_selected_text ++
    ". The correct answer is " ++ i.correct_option ++ ". " ++ i.correct_text ++ "."

/-- `get_quiz_feedback`: 404 when the quiz does not exist; otherwise ask
the (possibly absent) model service and, when it is absent or returns
Failure, answer with one templated fallback explanation per mismatch. -/
def get_quiz_feedback (quizzes : List Quiz) (quiz_id : Nat)
    (service : Option (FeedbackRequest → Option FeedbackResponse))
    (payload : FeedbackRequest) : Except Nat FeedbackResponse :=
  match quizzes.find? fun q => q.id == quiz_id with
  | none => .error 404
  | some _ =>
    let feedback :=
      match service with
      | none => none
      | some explain_incorrect_answers => explain_incorrect_answers payload
    match feedback with
    | none =>
      .ok { items := payload.items.map fun i =>
              { question_id := i.question_id
                explanation := fallbackExplanation i } }
    | some fb => .ok fb

/-! ## Derived scoring observables and reference-validity -/

/-- Resolve one submitted answer against a quiz exactly the way the answer
loop does: the first question with the referenced id, then the first of its
options with the referenced id. -/
def resolveAnswer (quiz : Quiz) (answer : UserAnswerSubmission) :
    Option (Question × QuestionOption) :=
  match quiz.questions.find? fun q => q.id == answer.question_id with
  | none => none
  | some question =>
    match question.options.find? fun opt => opt.id == answer.selected_option_id with
    | none => none
    | some selected_option => some (question, selected_option)

/-- Whether a submitted answer resolves to some question/option pair. -/
def answerIsValid (quiz : Quiz) (answer : UserAnswerSubmission) : Bool :=
  (resolveAnswer quiz answer).isSome

/-- Whether a submitted answer resolves to a correct option. -/
def answerIsCorrect (quiz : Quiz) (answer : UserAnswerSubmission) : Bool :=
  match resolveAnswer quiz answer with
  | some (_, opt) => opt.is_correct
  | none => false

/-- An answer whose question reference does not belong to the quiz, or whose
selected option does not belong to the referenced question. -/
def InvalidRef (quiz : Quiz) (answer : UserAnswerSubmission) : Prop :=
  (∀ q ∈ quiz.questions, q.id ≠ answer.question_id) ∨
  (∀ q ∈ quiz.questions, q.id = answer.question_id →
    ∀ opt ∈ q.options, opt.id ≠ answer.selected_option_id)

/-! ## Concrete fixtures used by witnesses -/

/-- A persisted two-question quiz used as a concrete test fixture. -/
def fixtureQuiz : Quiz :=
  { id := 7
    topic := "math"
    questions :=
      [{ id := 1
         question_text := "one plus one?"
         question_order := 1
         options :=
           [{ id := 11, option_text := "3", option_letter := "A", is_correct := false },
            { id := 12, option_text := "2", option_letter := "B", is_correct := true }] },
       { id := 2
         question_text := "two plus two?"
         question_order := 2
         options :=
           [{ id := 21, option_text := "4", option_letter := "A", is_correct := true },
            { id := 22, option_text := "5", option_letter := "B", is_correct := false }] }] }

/-- A submission hitting the correct option of every `fixtureQuiz` question. -/
def fixtureSubmissionCorrect : QuizSubmission :=
  { quiz_id := 7, answers := [⟨1, 12⟩, ⟨2, 21⟩] }

/-- A submission whose references are all invalid for `fixtureQuiz`: an
unknown question id and an option id from the wrong question. -/
def fixtureSubmissionInvalid : QuizSubmission :=
  { quiz_id := 7, answers := [⟨9, 12⟩, ⟨1, 21⟩] }

/-- A submission repeating the correct option of question 1 three times. -/
def fixtureSubmissionDup : QuizSubmission :=
  { quiz_id := 7, answers := [⟨1, 12⟩, ⟨1, 12⟩, ⟨1, 12⟩] }

/-- A one-question quiz for the score-overflow example. -/
def overflowQuiz : Quiz :=
  { id := 3
    topic := "t"
    questions :=
      [{ id := 1
         question_text := "q?"
         question_order := 1
         options :=
           [{ id := 11, option_text := "a", option_letter := "A", is_correct := true },
            { id := 12, option_text := "b", option_letter := "B", is_correct := false }] }] }

/-- The same correct answer submitted twice against `overflowQuiz`. -/
def overflowSubmission : QuizSubmission :=
  { quiz_id := 3, answers := [⟨1, 11⟩, ⟨1, 11⟩] }

/-- A candidate whose second question uses label E instead of D. -/
def badLabelCandidate : GeminiQuizResponse :=
  { topic := "t"
    questions :=
      [{ question := "q?"
         options := [("A", "1"), ("B", "2"), ("C", "3"), ("E", "4")]
         correct_answer := "B" }] }

/-- A candidate whose question's correct answer is not a present label. -/
def badCorrectCandidate : GeminiQuizResponse :=
  { topic := "t"
    questions :=
      [{ question := "q?"
         options := [("A", "1"), ("B", "2"), ("C", "3"), ("D", "4")]
         correct_answer := "E" }] }

/-- A candidate accepted by the business rules. -/
def goodCandidate : GeminiQuizResponse :=
  { topic := "t"
    questions :=
      [{ question := "first?"
         options := [("A", "1"), ("B", "2"), ("C", "3"), ("D", "4")]
         correct_answer := "B" },
       { question := "second?"
         options := [("A", "5"), ("B", "6"), ("C", "7"), ("D", "8")]
         correct_answer := "D" }] }

/-- A feedback payload with one mismatch, used as a witness fixture. -/
def fixtureFeedbackPayload : FeedbackRequest :=
  { topic := "math"
    items :=
      [{ question_id := 1
         question_text := "one plus one?"
         user_selected := "A"
         user_selected_text := "3"
         correct_option := "B"
         correct_text := "2" }] }

/-! ## Helper lemmas about the Python string primitives -/

lemma strContainsL_iff (hay needle : List Char) :
    strContainsL hay needle = true ↔ ∃ l r, hay = l ++ needle ++ r := by
  unfold strContainsL matchAtL
  simp only [List.any_eq_true, List.mem_range]
  constructor
  · rintro ⟨i, _, hmatch⟩
    have hm : (hay.drop i).take needle.length = needle := eq_of_beq hmatch
    refine ⟨hay.take i, (hay.drop i).drop needle.length, ?_⟩
    have hsplit : hay = hay.take i ++
        ((hay.drop i).take needle.length ++ (hay.drop i).drop needle.length) := by
      rw [List.take_append_drop, List.take_append_drop]
    rw [hm] at hsplit
    rw [List.append_assoc]
    exact hsplit
  · rintro ⟨l, r, rfl⟩
    refine ⟨l.length, ?_, ?_⟩
    · simp [List.length_append]
      omega
    · rw [List.append_assoc, List.drop_left, List.take_left]
      exact beq_self_eq_true needle

lemma startsWithL_append (a s : List Char) : startsWithL (a ++ s) a = true := by
  unfold startsWithL
  rw [List.take_left]
  exact beq_self_eq_true a

lemma endsWithL_append (s a : List Char) : endsWithL (s ++ a) a = true := by
  unfold endsWithL
  have h : (s ++ a).length - a.length = s.length := by
    simp [List.length_append]
  rw [h, List.drop_left]
  exact beq_self_eq_true a

lemma startsWithL_take (s a : List Char) (k : Nat) (h : startsWithL s a = true) :
    startsWithL s (a.take k) = true := by
  unfold startsWithL at *
  have ha : s.take a.length = a := eq_of_beq h
  have h2 : s.take (a.take k).length = a.take k := by
    rw [List.length_take, ← List.take_take, ha]
  rw [h2]
  exact beq_self_eq_true _

lemma matchAtL_zero (hay needle : List Char) :
    matchAtL hay needle 0 = startsWithL hay needle := by
  unfold matchAtL startsWithL
  rw [List.drop_zero]

lemma findStrL_of_startsWith (hay needle : List Char)
    (h : startsWithL hay needle = true) : findStrL hay needle = some 0 := by
  unfold findStrL
  rw [findFromL, matchAtL_zero, h]
  simp

lemma matchAtL_append_self (pre needle : List Char) :
    matchAtL (pre ++ needle) needle pre.length = true := by
  unfold matchAtL
  rw [List.drop_left, List.take_length]
  exact beq_self_eq_true _

lemma matchAtL_eq_false_of_short (hay needle : List Char) (k : Nat)
    (hk : hay.length < k + needle.length) (hne : needle ≠ []) :
    matchAtL hay needle k = false := by
  unfold matchAtL
  rw [beq_eq_false_iff_ne]
  intro he
  have hlen := congrArg List.length he
  simp only [List.length_take, List.length_drop] at hlen
  have hnl : needle.length ≠ 0 := by
    simpa [List.length_eq_zero] using hne
  omega

lemma rfindFromL_eq_some (hay needle : List Char) (m : Nat)
    (hm : matchAtL hay needle m = true) :
    ∀ top, m ≤ top → (∀ k, m < k → k ≤ top → matchAtL hay needle k = false) →
    rfindFromL hay needle top = some m := by
  intro top
  induction top with
  | zero =>
    intro hle _
    have hm0 : m = 0 := Nat.le_zero.mp hle
    subst hm0
    rw [rfindFromL, hm]
    rfl
  | succ t ih =>
    intro hle hmax
    rw [rfindFromL]
    by_cases hk : matchAtL hay needle (t + 1) = true
    · have hmt : m = t + 1 := by
        by_contra hne
        have hlt : m < t + 1 := lt_of_le_of_ne hle hne
        rw [hmax (t + 1) hlt (le_refl _)] at hk
        cases hk
      rw [hk, hmt]
      rfl
    · rw [Bool.not_eq_true] at hk
      rw [hk]
      have hmt : m ≤ t := by
        rcases Nat.lt_succ_iff_lt_or_eq.mp (Nat.lt_succ_of_le hle) with h | h
        · exact Nat.lt_succ_iff.mp h
        · subst h
          rw [hm] at hk
          cases hk
      exact ih hmt fun k h1 h2 => hmax k h1 (Nat.le_succ_of_le h2)

lemma dropWhile_append_of_ne_nil {α : Type} {p : α → Bool} {l r : List α}
    (h : l.dropWhile p ≠ []) :
    (l ++ r).dropWhile p = l.dropWhile p ++ r := by
  rw [List.dropWhile_append]
  simp [List.isEmpty_iff, h]

lemma pyStrip_cons_ws (c : Char) (l : List Char) (hc : c.isWhitespace = true) :
    pyStrip (c :: l) = pyStrip l := by
  unfold pyStrip pyDropLead
  rw [List.dropWhile_cons_of_pos hc]

lemma pyDropTrail_append_ws (l : List Char) (c : Char)
    (hc : c.isWhitespace = true) : pyDropTrail (l ++ [c]) = pyDropTrail l := by
  unfold pyDropTrail
  rw [List.reverse_concat, List.dropWhile_cons_of_pos hc]

lemma pyStrip_append_ws (l : List Char) (c : Char) (hc : c.isWhitespace = true) :
    pyStrip (l ++ [c]) = pyStrip l := by
  unfold pyStrip
  by_cases h : pyDropLead l = []
  · unfold pyDropLead at *
    rw [List.dropWhile_append, h]
    simp only [List.isEmpty_nil, if_true]
    rw [List.dropWhile_cons_of_pos hc]
    rfl
  · unfold pyDropLead at *
    rw [dropWhile_append_of_ne_nil h, pyDropTrail_append_ws _ _ hc]

lemma pyDropLead_cons_not_ws (c : Char) (l : List Char)
    (hc : c.isWhitespace = false) : pyDropLead (c :: l) = c :: l := by
  unfold pyDropLead
  exact List.dropWhile_cons_of_neg (by simp [hc])

lemma pyDropTrail_append_not_ws (l : List Char) (c : Char)
    (hc : c.isWhitespace = false) : pyDropTrail (l ++ [c]) = l ++ [c] := by
  unfold pyDropTrail
  rw [List.reverse_concat, List.dropWhile_cons_of_neg (by simp [hc])]
  simp

lemma pyStrip_shape_eq_self (mid : List Char) (c d : Char)
    (hc : c.isWhitespace = false) (hd : d.isWhitespace = false) :
    pyStrip (c :: (mid ++ [d])) = c :: (mid ++ [d]) := by
  unfold pyStrip
  rw [pyDropLead_cons_not_ws _ _ hc]
  have hshape : c :: (mid ++ [d]) = (c :: mid) ++ [d] := by simp
  rw [hshape, pyDropTrail_append_not_ws _ _ hd]

lemma extractJsonText_wrap_json (p : String) :
    extractJsonText ("```json\n" ++ p ++ "\n```") = pyStrip p.toList := by
  have h1 : ("```json\n").toList = ['`','`','`','j','s','o','n','\n'] := by decide
  have h2 : ("\n```").toList = ['\n','`','`','`'] := by decide
  have hw : ("```json\n" ++ p ++ "\n```").toList
      = ['`','`','`','j','s','o','n','\n'] ++ (p.toList ++ ['\n','`','`','`']) := by
    rw [← h1, ← h2]
    simp [String.toList, String.data_append]
  have h7 : ("```json").toList = ['`','`','`','j','s','o','n'] := by decide
  have h3 : ("```").toList = ['`','`','`'] := by decide
  have hstrip : pyStrip (['`','`','`','j','s','o','n','\n'] ++ (p.toList ++ ['\n','`','`','`']))
      = ['`','`','`','j','s','o','n','\n'] ++ (p.toList ++ ['\n','`','`','`']) := by
    have hshape : ['`','`','`','j','s','o','n','\n'] ++ (p.toList ++ ['\n','`','`','`'])
        = '`' :: ((['`','`','j','s','o','n','\n'] ++ (p.toList ++ ['\n','`','`'])) ++ ['`']) := by
      simp
    rw [hshape, pyStrip_shape_eq_self _ _ _ (by decide) (by decide)]
  have hsw : startsWithL (['`','`','`','j','s','o','n','\n'] ++ (p.toList ++ ['\n','`','`','`']))
      (("```json").toList) = true := by
    rw [h7]
    have hsh : ['`','`','`','j','s','o','n','\n'] ++ (p.toList ++ ['\n','`','`','`'])
        = ['`','`','`','j','s','o','n'] ++ ('\n' :: (p.toList ++ ['\n','`','`','`'])) := by
      simp
    rw [hsh]
    exact startsWithL_append _ _
  have hew : endsWithL (['`','`','`','j','s','o','n','\n'] ++ (p.toList ++ ['\n','`','`','`']))
      (("```").toList) = true := by
    rw [h3]
    have hsh : ['`','`','`','j','s','o','n','\n'] ++ (p.toList ++ ['\n','`','`','`'])
        = (['`','`','`','j','s','o','n','\n'] ++ (p.toList ++ ['\n'])) ++ ['`','`','`'] := by
      simp
    rw [hsh]
    exact endsWithL_append _ _
  have hfind : findStrL (['`','`','`','j','s','o','n','\n'] ++ (p.toList ++ ['\n','`','`','`']))
      (("```json").toList) = some 0 := findStrL_of_startsWith _ _ hsw
  have hlenpre : (['`','`','`','j','s','o','n','\n'] ++ (p.toList ++ ['\n'])).length
      = p.toList.length + 9 := by
    simp only [List.length_append, List.length_cons, List.length_nil]
    omega
  have hrfind : rfindStrL (['`','`','`','j','s','o','n','\n'] ++ (p.toList ++ ['\n','`','`','`']))
      (("```").toList) = some (p.toList.length + 9) := by
    unfold rfindStrL
    have hsh : ['`','`','`','j','s','o','n','\n'] ++ (p.toList ++ ['\n','`','`','`'])
        = (['`','`','`','j','s','o','n','\n'] ++ (p.toList ++ ['\n'])) ++ ['`','`','`'] := by
      simp
    apply rfindFromL_eq_some
    · rw [h3, hsh, ← hlenpre]
      have h33 : (['`','`','`'] : List Char) = ("```").toList := by decide
      rw [h33]
      exact matchAtL_append_self _ _
    · simp only [List.length_append, List.length_cons, List.length_nil]
      omega
    · intro k h1k h2k
      apply matchAtL_eq_false_of_short
      · rw [h3]
        simp only [List.length_append, List.length_cons, List.length_nil] at h2k ⊢
        omega
      · rw [h3]
        decide
  unfold extractJsonText
  rw [hw, hstrip]
  simp only [hsw, hew, hfind, hrfind, Option.getD_some, Bool.and_self, if_true]
  have hslice : pySlice (['`','`','`','j','s','o','n','\n'] ++ (p.toList ++ ['\n','`','`','`']))
      (0 + 7) (p.toList.length + 9) = '\n' :: (p.toList ++ ['\n']) := by
    unfold pySlice
    have hsh : ['`','`','`','j','s','o','n','\n'] ++ (p.toList ++ ['\n','`','`','`'])
        = (['`','`','`','j','s','o','n','\n'] ++ (p.toList ++ ['\n'])) ++ ['`','`','`'] := by
      simp
    rw [hsh, ← hlenpre, List.take_left]
    have hsh2 : ['`','`','`','j','s','o','n','\n'] ++ (p.toList ++ ['\n'])
        = ['`','`','`','j','s','o','n'] ++ ('\n' :: (p.toList ++ ['\n'])) := by
      simp
    rw [hsh2]
    have h7l : (0 + 7 : Nat) = (['`','`','`','j','s','o','n'] : List Char).length := by decide
    rw [h7l, List.drop_left]
  rw [hslice, pyStrip_cons_ws _ _ (by decide), pyStrip_append_ws _ _ (by decide)]

lemma startsWithL_cons (c d : Char) (s t : List Char) :
    startsWithL (c :: s) (d :: t) = (c == d && startsWithL s t) := by
  unfold startsWithL
  rw [List.length_cons, List.take_succ_cons]
  rfl

lemma extractJsonText_wrap_generic (p : String) :
    extractJsonText ("```\n" ++ p ++ "\n```") = pyStrip p.toList := by
  have h1 : ("```\n").toList = ['`','`','`','\n'] := by decide
  have h2 : ("\n```").toList = ['\n','`','`','`'] := by decide
  have h7 : ("```json").toList = ['`','`','`','j','s','o','n'] := by decide
  have h3 : ("```").toList = ['`','`','`'] := by decide
  have hw : ("```\n" ++ p ++ "\n```").toList
      = ['`','`','`','\n'] ++ (p.toList ++ ['\n','`','`','`']) := by
    rw [← h1, ← h2]
    simp [String.toList, String.data_append]
  have hstrip : pyStrip (['`','`','`','\n'] ++ (p.toList ++ ['\n','`','`','`']))
      = ['`','`','`','\n'] ++ (p.toList ++ ['\n','`','`','`']) := by
    have hshape : ['`','`','`','\n'] ++ (p.toList ++ ['\n','`','`','`'])
        = '`' :: ((['`','`','\n'] ++ (p.toList ++ ['\n','`','`'])) ++ ['`']) := by
      simp
    rw [hshape, pyStrip_shape_eq_self _ _ _ (by decide) (by decide)]
  have hswj : startsWithL (['`','`','`','\n'] ++ (p.toList ++ ['\n','`','`','`']))
      (("```json").toList) = false := by
    rw [h7]
    have hsh : ['`','`','`','\n'] ++ (p.toList ++ ['\n','`','`','`'])
        = '`' :: '`' :: '`' :: '\n' :: (p.toList ++ ['\n','`','`','`']) := by
      simp
    rw [hsh, startsWithL_cons, startsWithL_cons, startsWithL_cons, startsWithL_cons]
    simp [show ('\n' == 'j') = false from by decide]
  have hsw : startsWithL (['`','`','`','\n'] ++ (p.toList ++ ['\n','`','`','`']))
      (("```").toList) = true := by
    rw [h3]
    have hsh : ['`','`','`','\n'] ++ (p.toList ++ ['\n','`','`','`'])
        = ['`','`','`'] ++ ('\n' :: (p.toList ++ ['\n','`','`','`'])) := by
      simp
    rw [hsh]
    exact startsWithL_append _ _
  have hew : endsWithL (['`','`','`','\n'] ++ (p.toList ++ ['\n','`','`','`']))
      (("```").toList) = true := by
    rw [h3]
    have hsh : ['`','`','`','\n'] ++ (p.toList ++ ['\n','`','`','`'])
        = (['`','`','`','\n'] ++ (p.toList ++ ['\n'])) ++ ['`','`','`'] := by
      simp
    rw [hsh]
    exact endsWithL_append _ _
  have hfind : findStrL (['`','`','`','\n'] ++ (p.toList ++ ['\n','`','`','`']))
      (("```").toList) = some 0 := findStrL_of_startsWith _ _ hsw
  have hlenpre : (['`','`','`','\n'] ++ (p.toList ++ ['\n'])).length
      = p.toList.length + 5 := by
    simp only [List.length_append, List.length_cons, List.length_nil]
    omega
  have hrfind : rfindStrL (['`','`','`','\n'] ++ (p.toList ++ ['\n','`','`','`']))
      (("```").toList) = some (p.toList.length + 5) := by
    unfold rfindStrL
    have hsh : ['`','`','`','\n'] ++ (p.toList ++ ['\n','`','`','`'])
        = (['`','`','`','\n'] ++ (p.toList ++ ['\n'])) ++ ['`','`','`'] := by
      simp
    apply rfindFromL_eq_some
    · rw [h3, hsh, ← hlenpre]
      have h33 : (['`','`','`'] : List Char) = ("```").toList := by decide
      rw [h33]
      exact matchAtL_append_self _ _
    · simp only [List.length_append, List.length_cons, List.length_nil]
      omega
    · intro k h1k h2k
      apply matchAtL_eq_false_of_short
      · rw [h3]
        simp only [List.length_append, List.length_cons, List.length_nil] at h2k ⊢
        omega
      · rw [h3]
        decide
  unfold extractJsonText
  rw [hw, hstrip]
  simp only [hswj, hsw, hew, hfind, hrfind, Option.getD_some, Bool.and_self,
    Bool.false_and, if_true, if_false, Bool.false_eq_true]
  have hslice : pySlice (['`','`','`','\n'] ++ (p.toList ++ ['\n','`','`','`']))
      (0 + 3) (p.toList.length + 5) = '\n' :: (p.toList ++ ['\n']) := by
    unfold pySlice
    have hsh : ['`','`','`','\n'] ++ (p.toList ++ ['\n','`','`','`'])
        = (['`','`','`','\n'] ++ (p.toList ++ ['\n'])) ++ ['`','`','`'] := by
      simp
    rw [hsh, ← hlenpre, List.take_left]
    have hsh2 : ['`','`','`','\n'] ++ (p.toList ++ ['\n'])
        = ['`','`','`'] ++ ('\n' :: (p.toList ++ ['\n'])) := by
      simp
    rw [hsh2]
    have h3l : (0 + 3 : Nat) = (['`','`','`'] : List Char).length := by decide
    rw [h3l, List.drop_left]
  rw [hslice, pyStrip_cons_ws _ _ (by decide), pyStrip_append_ws _ _ (by decide)]

lemma extractJsonText_plain (p : String)
    (h : startsWithL (pyStrip p.toList) (("```").toList) = false) :
    extractJsonText p = pyStrip p.toList := by
  have h7 : startsWithL (pyStrip p.toList) (("```json").toList) = false := by
    by_contra hx
    rw [Bool.not_eq_false] at hx
    have h3 := startsWithL_take _ _ 3 hx
    rw [show ("```json").toList.take 3 = ("```").toList from by decide] at h3
    rw [h3] at h
    cases h
  unfold extractJsonText
  simp only [h7, h, Bool.false_and, Bool.false_eq_true, if_false]

/-- C6: for every JSON payload, a model response wrapped in a ```json fenced
code block — or a generic ``` fence — parses to the same quiz-candidate
result as the unwrapped payload: the fence is stripped before JSON
parsing. -/
theorem fenced_response_parses_identically (topic : String) (n : Nat) (p : String)
    (h : startsWithL (pyStrip p.toList) (("```").toList) = false) :
    generate_quiz topic (.ok ("```json\n" ++ p ++ "\n```")) n
      = generate_quiz topic (.ok p) n ∧
    generate_quiz topic (.ok ("```\n" ++ p ++ "\n```")) n
      = generate_quiz topic (.ok p) n := by
  have hne1 : ("```json\n" ++ p ++ "\n```").isEmpty = false := by
    rw [Bool.eq_false_iff]
    intro hx
    have h2 := (String.isEmpty_iff _).mp hx
    have h3 := congrArg String.data h2
    simp [String.data_append] at h3
  have hne2 : ("```\n" ++ p ++ "\n```").isEmpty = false := by
    rw [Bool.eq_false_iff]
    intro hx
    have h2 := (String.isEmpty_iff _).mp hx
    have h3 := congrArg String.data h2
    simp [String.data_append] at h3
  have hext1 := extractJsonText_wrap_json p
  have hext2 := extractJsonText_wrap_generic p
  have hext3 := extractJsonText_plain p h
  by_cases hp : p.isEmpty = true
  · have hpe : p = "" := (String.isEmpty_iff _).mp hp
    subst hpe
    constructor
    · simp only [generate_quiz, hne1, Bool.false_eq_true, if_false, hext1]
      rfl
    · simp only [generate_quiz, hne2, Bool.false_eq_true, if_false, hext2]
      rfl
  · have hp' : p.isEmpty = false := by
      rwa [Bool.not_eq_true] at hp
    constructor
    · simp only [generate_quiz, hne1, hp', Bool.false_eq_true, if_false, hext1, hext3]
    · simp only [generate_quiz, hne2, hp', Bool.false_eq_true, if_false, hext2, hext3]

/-- Witness for C6 at the concrete payload `[1]`. -/
theorem fenced_response_parses_identically_witness :
    startsWithL (pyStrip ("[1]").toList) (("```").toList) = false ∧
    (generate_quiz "t" (.ok ("```json\n" ++ "[1]" ++ "\n```")) 5
      = generate_quiz "t" (.ok "[1]") 5 ∧
     generate_quiz "t" (.ok ("```\n" ++ "[1]" ++ "\n```")) 5
      = generate_quiz "t" (.ok "[1]") 5) :=
  ⟨by decide, fenced_response_parses_identically "t" 5 "[1]" (by decide)⟩

/-- C5: the gateway converts every fault of the model response — a raised
transport/API error, an empty response text, malformed JSON, or JSON that
does not deserialize to the expected candidate shape — into the Failure
result `none`; being a total function into `Option`, no fault propagates
past the gateway boundary. -/
theorem gateway_faults_become_none (topic : String) (n : Nat) :
    (∀ e, generate_quiz topic (.error e) n = none) ∧
    (∀ text, text.isEmpty = true → generate_quiz topic (.ok text) n = none) ∧
    (∀ text, jsonLoads (extractJsonText text) = none →
      generate_quiz topic (.ok text) n = none) ∧
    (∀ text j, jsonLoads (extractJsonText text) = some j → geminiOfJson j = none →
      generate_quiz topic (.ok text) n = none) := by
  refine ⟨fun e => rfl, fun text ht => ?_, fun text ht => ?_, fun text j hj hg => ?_⟩
  · simp only [generate_quiz, ht, if_true]
  · by_cases he : text.isEmpty = true
    · simp only [generate_quiz, he, if_true]
    · rw [Bool.not_eq_true] at he
      simp only [generate_quiz, he, Bool.false_eq_true, if_false, ht]
  · by_cases he : text.isEmpty = true
    · simp only [generate_quiz, he, if_true]
    · rw [Bool.not_eq_true] at he
      simp only [generate_quiz, he, Bool.false_eq_true, if_false, hj, hg]

/-- Witness for C5: a raised transport error, an empty text, unparseable
text, and well-formed JSON of the wrong shape all yield `none`. -/
theorem gateway_faults_become_none_witness :
    generate_quiz "t" (.error "api error") 5 = none ∧
    generate_quiz "t" (.ok "") 5 = none ∧
    generate_quiz "t" (.ok "not json") 5 = none ∧
    generate_quiz "t" (.ok "[1]") 5 = none :=
  ⟨(gateway_faults_become_none "t" 5).1 "api error",
   (gateway_faults_become_none "t" 5).2.1 "" (by decide),
   (gateway_faults_become_none "t" 5).2.2.1 "not json" (by rfl),
   (gateway_faults_become_none "t" 5).2.2.2 "[1]" (Json.arr [Json.num 1])
     (by rfl) (by rfl)⟩

/-! ## Helper lemmas about the answer loop -/

lemma processAnswer_of_resolve_none (quiz : Quiz) (aid : Nat) (st : ScoreState)
    (a : UserAnswerSubmission) (h : resolveAnswer quiz a = none) :
    processAnswer quiz aid st a = st := by
  unfold processAnswer
  split
  · rfl
  next question hfq =>
    split
    · rfl
    next opt hfo =>
      unfold resolveAnswer at h
      rw [hfq] at h
      simp only [hfo] at h
      cases h

lemma processAnswer_of_resolve_some (quiz : Quiz) (aid : Nat) (st : ScoreState)
    (a : UserAnswerSubmission) (question : Question) (opt : QuestionOption)
    (h : resolveAnswer quiz a = some (question, opt)) :
    processAnswer quiz aid st a =
      { correct_count := st.correct_count + (if opt.is_correct then 1 else 0)
        responses := st.responses ++
          [{ attempt_id := aid
             question_id := question.id
             selected_option_id := opt.id
             is_correct := opt.is_correct }]
        correct_answers := st.correct_answers ++
          [{ question_id := question.id
             question_text := question.question_text
             correct_option :=
               ((question.options.find? fun o => o.is_correct).map
                 (·.option_letter)).getD "N/A"
             correct_text :=
               ((question.options.find? fun o => o.is_correct).map
                 (·.option_text)).getD "N/A"
             user_selected := opt.option_letter
             user_selected_text := opt.option_text
             is_correct := opt.is_correct }] } := by
  unfold processAnswer
  split
  next hfq =>
    unfold resolveAnswer at h
    rw [hfq] at h
    simp at h
  next question' hfq =>
    split
    next hfo =>
      unfold resolveAnswer at h
      rw [hfq] at h
      simp only [hfo] at h
      cases h
    next opt' hfo =>
      unfold resolveAnswer at h
      rw [hfq] at h
      simp only [hfo, Option.some.injEq, Prod.mk.injEq] at h
      obtain ⟨hq, ho⟩ := h
      subst hq
      subst ho
      rfl

lemma foldl_processAnswer_skip (quiz : Quiz) (aid : Nat)
    (answers : List UserAnswerSubmission)
    (h : ∀ a ∈ answers, resolveAnswer quiz a = none) :
    ∀ st, answers.foldl (processAnswer quiz aid) st = st := by
  induction answers with
  | nil => intro st; rfl
  | cons a as ih =>
    intro st
    rw [List.foldl_cons,
      processAnswer_of_resolve_none quiz aid st a (h a (List.mem_cons_self a as))]
    exact ih (fun x hx => h x (List.mem_cons_of_mem a hx)) st

lemma foldl_processAnswer_correct_count (quiz : Quiz) (aid : Nat)
    (answers : List UserAnswerSubmission) :
    ∀ st, (answers.foldl (processAnswer quiz aid) st).correct_count
      = st.correct_count + answers.countP (answerIsCorrect quiz) := by
  induction answers with
  | nil => intro st; simp
  | cons a as ih =>
    intro st
    rw [List.foldl_cons, List.countP_cons]
    rcases hres : resolveAnswer quiz a with _ | ⟨question, opt⟩
    · rw [processAnswer_of_resolve_none quiz aid st a hres, ih st]
      have hcor : answerIsCorrect quiz a = false := by
        simp [answerIsCorrect, hres]
      simp [hcor]
    · rw [processAnswer_of_resolve_some quiz aid st a question opt hres, ih]
      have hcor : answerIsCorrect quiz a = opt.is_correct := by
        simp [answerIsCorrect, hres]
      rw [hcor]
      cases opt.is_correct
      · simp
      · simp
        omega

lemma foldl_processAnswer_responses_length (quiz : Quiz) (aid : Nat)
    (answers : List UserAnswerSubmission) :
    ∀ st, (answers.foldl (processAnswer quiz aid) st).responses.length
      = st.responses.length + answers.countP (answerIsValid quiz) := by
  induction answers with
  | nil => intro st; simp
  | cons a as ih =>
    intro st
    rw [List.foldl_cons, List.countP_cons]
    rcases hres : resolveAnswer quiz a with _ | ⟨question, opt⟩
    · rw [processAnswer_of_resolve_none quiz aid st a hres, ih st]
      have hval : answerIsValid quiz a = false := by
        simp [answerIsValid, hres]
      simp [hval]
    · rw [processAnswer_of_resolve_some quiz aid st a question opt hres, ih]
      have hval : answerIsValid quiz a = true := by
        simp [answerIsValid, hres]
      simp [hval]
      omega

lemma foldl_processAnswer_responses_aid (quiz : Quiz) (aid : Nat)
    (answers : List UserAnswerSubmission) :
    ∀ st, ∀ resp ∈ (answers.foldl (processAnswer quiz aid) st).responses,
      resp ∈ st.responses ∨ resp.attempt_id = aid := by
  induction answers with
  | nil =>
    intro st resp hresp
    exact Or.inl hresp
  | cons a as ih =>
    intro st resp hresp
    rcases hres : resolveAnswer quiz a with _ | ⟨question, opt⟩
    · rw [List.foldl_cons, processAnswer_of_resolve_none quiz aid st a hres] at hresp
      exact ih st resp hresp
    · rw [List.foldl_cons,
        processAnswer_of_resolve_some quiz aid st a question opt hres] at hresp
      rcases ih _ resp hresp with hmem | hid
      · rcases List.mem_append.mp hmem with hmem | hone
        · exact Or.inl hmem
        · rcases List.mem_singleton.mp hone with rfl
          exact Or.inr rfl
      · exact Or.inr hid

lemma InvalidRef_resolve_none (quiz : Quiz) (a : UserAnswerSubmission)
    (hinv : InvalidRef quiz a) : resolveAnswer quiz a = none := by
  unfold resolveAnswer
  split
  · rfl
  next question hfq =>
    have hqmem := List.mem_of_find?_eq_some hfq
    have hqid : question.id = a.question_id := by
      simpa using List.find?_some hfq
    rcases hinv with hinv | hinv
    · exact absurd hqid (hinv question hqmem)
    · have hnone : question.options.find?
          (fun opt => opt.id == a.selected_option_id) = none :=
        List.find?_eq_none.mpr fun opt hmem hbeq =>
          hinv question hqmem hqid opt hmem (eq_of_beq hbeq)
      rw [hnone]

/-- C2: every submitted answer whose question reference does not belong to
the quiz, or whose selected option does not belong to that question, is
skipped silently: no `UserResponse` row is created, nothing is added to the
correct-count, no result line is recorded, scoring still returns a result
(it does not raise), and `total_questions` is the quiz's full question
count — an empty or entirely-invalid submission scores 0 over the true
total. -/
theorem invalid_references_skipped
    (quizzes : List Quiz) (db : DbState) (submission : QuizSubmission)
    (quiz : Quiz)
    (hq : quizzes.find? (fun q => q.id == submission.quiz_id) = some quiz)
    (hinv : ∀ a ∈ submission.answers, InvalidRef quiz a) :
    (∀ (aid : Nat) (st : ScoreState) (a : UserAnswerSubmission),
      InvalidRef quiz a → processAnswer quiz aid st a = st) ∧
    (∃ r : QuizResult,
      (submit_quiz_answers quizzes db false submission).2 = some r ∧
      r.score = 0 ∧
      r.total_questions = quiz.questions.length ∧
      r.correct_answers = [] ∧
      (submit_quiz_answers quizzes db false submission).1.responses
        = db.responses) := by
  refine ⟨fun aid st a ha =>
    processAnswer_of_resolve_none quiz aid st a (InvalidRef_resolve_none quiz a ha),
    ?_⟩
  have hskip := foldl_processAnswer_skip quiz (db.attempts.length + 1)
    submission.answers
    (fun a ha => InvalidRef_resolve_none quiz a (hinv a ha))
    { correct_count := 0, responses := [], correct_answers := [] }
  unfold submit_quiz_answers
  simp only [hq, hskip]
  exact ⟨_, rfl, rfl, rfl, rfl, by simp⟩

/-- Witness for C2: a submission against the fixture quiz with an unknown
question id and a cross-question option id still scores, with score 0,
full total, no recorded responses. -/
theorem invalid_references_skipped_witness :
    ∃ r : QuizResult,
      (submit_quiz_answers [fixtureQuiz] ⟨[], []⟩ false
        fixtureSubmissionInvalid).2 = some r ∧
      r.score = 0 ∧
      r.total_questions = fixtureQuiz.questions.length ∧
      r.correct_answers = [] ∧
      (submit_quiz_answers [fixtureQuiz] ⟨[], []⟩ false
        fixtureSubmissionInvalid).1.responses = ([] : List UserResponse) :=
  (invalid_references_skipped [fixtureQuiz] ⟨[], []⟩ fixtureSubmissionInvalid
    fixtureQuiz (by decide)
    (by
      intro a ha
      have hcases : a = (⟨9, 12⟩ : UserAnswerSubmission) ∨
          a = (⟨1, 21⟩ : UserAnswerSubmission) := by
        simpa [fixtureSubmissionInvalid] using ha
      rcases hcases with rfl | rfl
      · exact Or.inl (by decide)
      · exact Or.inr (by decide))).2

/-- Bridge from the executable `Rat.floor` to the order-theoretic `⌊·⌋`. -/
lemma ratFloor_eq_intFloor (q : ℚ) : Rat.floor q = ⌊q⌋ :=
  (Rat.floor_def' q).trans Rat.floor_def.symm

/-- C10: scoring counts every submitted answer independently, including
duplicates: the score is the number of submitted answers that resolve to a
correct option (so a correct answer repeated k times contributes k), one
`UserResponse` row is created per resolving answer, and consequently an
attempt's score can exceed `total_questions`, with a reported percentage
above 100. -/
theorem duplicate_answers_counted
    (quizzes : List Quiz) (db : DbState) (submission : QuizSubmission)
    (quiz : Quiz)
    (hq : quizzes.find? (fun q => q.id == submission.quiz_id) = some quiz) :
    ∃ r : QuizResult,
      (submit_quiz_answers quizzes db false submission).2 = some r ∧
      r.score = submission.answers.countP (answerIsCorrect quiz) ∧
      (submit_quiz_answers quizzes db false submission).1.responses.length
        = db.responses.length + submission.answers.countP (answerIsValid quiz) ∧
      (∀ k a, submission.answers = List.replicate k a →
        answerIsCorrect quiz a = true → r.score = k) ∧
      (∃ r2 : QuizResult,
        (submit_quiz_answers [overflowQuiz] ⟨[], []⟩ false overflowSubmission).2
          = some r2 ∧
        r2.total_questions < r2.score ∧ (100 : ℚ) < r2.percentage) := by
  unfold submit_quiz_answers
  simp only [hq, Bool.false_eq_true, if_false]
  refine ⟨_, rfl, ?_, ?_, ?_, ?_⟩
  · simpa using foldl_processAnswer_correct_count quiz (db.attempts.length + 1)
      submission.answers ⟨0, [], []⟩
  · have hlen := foldl_processAnswer_responses_length quiz
      (db.attempts.length + 1) submission.answers ⟨0, [], []⟩
    simp only [List.length_append, hlen]
    simp
  · intro k a hrep hcor
    have hcc := foldl_processAnswer_correct_count quiz (db.attempts.length + 1)
      submission.answers ⟨0, [], []⟩
    simp only [hrep] at hcc ⊢
    simp [hcc, List.countP_replicate, hcor]
  · have hfq : (List.find? (fun q => q.id == overflowSubmission.quiz_id)
        [overflowQuiz]) = some overflowQuiz := by rfl
    simp only [hfq]
    refine ⟨_, rfl, by decide, ?_⟩
    have hcc : (List.foldl (processAnswer overflowQuiz (([] : List QuizAttempt).length + 1))
        { correct_count := 0, responses := [], correct_answers := [] }
        overflowSubmission.answers).correct_count = 2 := by decide
    have hempt : (!overflowQuiz.questions.isEmpty) = true := rfl
    have hql : overflowQuiz.questions.length = 1 := rfl
    simp only [QuizResult.mk.injEq]
    show (100 : ℚ) < round2 _
    rw [hcc, hempt, hql, if_pos rfl]
    norm_num [round2, roundHalfEven, ratFloor_eq_intFloor]

/-- Witness for C10: three duplicate correct answers against the fixture
quiz, with the count equalities established by the theorem. -/
theorem duplicate_answers_counted_witness :
    ∃ r : QuizResult,
      (submit_quiz_answers [fixtureQuiz] ⟨[], []⟩ false fixtureSubmissionDup).2
        = some r ∧
      r.score = fixtureSubmissionDup.answers.countP (answerIsCorrect fixtureQuiz) ∧
      (submit_quiz_answers [fixtureQuiz] ⟨[], []⟩ false
          fixtureSubmissionDup).1.responses.length
        = (⟨[], []⟩ : DbState).responses.length
          + fixtureSubmissionDup.answers.countP (answerIsValid fixtureQuiz) ∧
      (∀ k a, fixtureSubmissionDup.answers = List.replicate k a →
        answerIsCorrect fixtureQuiz a = true → r.score = k) ∧
      (∃ r2 : QuizResult,
        (submit_quiz_answers [overflowQuiz] ⟨[], []⟩ false overflowSubmission).2
          = some r2 ∧
        r2.total_questions < r2.score ∧ (100 : ℚ) < r2.percentage) :=
  duplicate_answers_counted [fixtureQuiz] ⟨[], []⟩ fixtureSubmissionDup
    fixtureQuiz (by rfl)

/-- C8: scoring is transactional — a persistence failure rolls the whole
submission back, leaving the committed state untouched and reporting
Failure (`none`); a successful commit persists exactly one new attempt,
with its score already finalised to the reported correct-count, together
with all of the attempt's response rows in the same commit. -/
theorem scoring_transactional
    (quizzes : List Quiz) (db : DbState) (submission : QuizSubmission) :
    submit_quiz_answers quizzes db true submission = (db, none) ∧
    (∀ quiz, quizzes.find? (fun q => q.id == submission.quiz_id) = some quiz →
      ∃ attempt rs r,
        submit_quiz_answers quizzes db false submission
          = ({ attempts := db.attempts ++ [attempt]
               responses := db.responses ++ rs }, some r) ∧
        attempt.score = r.score ∧
        attempt.quiz_id = quiz.id ∧
        attempt.total_questions = quiz.questions.length ∧
        ∀ resp ∈ rs, resp.attempt_id = attempt.id) := by
  constructor
  · unfold submit_quiz_answers
    rcases hfq : quizzes.find? fun q => q.id == submission.quiz_id with _ | quiz <;>
      simp [hfq]
  · intro quiz hq
    unfold submit_quiz_answers
    simp only [hq, Bool.false_eq_true, if_false]
    refine ⟨_, _, _, rfl, rfl, rfl, rfl, ?_⟩
    intro resp hresp
    have hms := foldl_processAnswer_responses_aid quiz (db.attempts.length + 1)
      submission.answers ⟨0, [], []⟩ resp hresp
    rcases hms with hmem | hid
    · exact absurd hmem (List.not_mem_nil resp)
    · exact hid

/-- Witness for C8 at the fixture quiz and submission: the rollback
equation, and the committed-state shape with the inner hypothesis
discharged at `fixtureQuiz`. -/
theorem scoring_transactional_witness :
    submit_quiz_answers [fixtureQuiz] ⟨[], []⟩ true fixtureSubmissionCorrect
      = (⟨[], []⟩, none) ∧
    (∃ attempt rs r,
      submit_quiz_answers [fixtureQuiz] ⟨[], []⟩ false fixtureSubmissionCorrect
        = ({ attempts := ([] : List QuizAttempt) ++ [attempt]
             responses := ([] : List UserResponse) ++ rs }, some r) ∧
      attempt.score = r.score ∧
      attempt.quiz_id = fixtureQuiz.id ∧
      attempt.total_questions = fixtureQuiz.questions.length ∧
      ∀ resp ∈ rs, resp.attempt_id = attempt.id) :=
  ⟨(scoring_transactional [fixtureQuiz] ⟨[], []⟩ fixtureSubmissionCorrect).1,
   (scoring_transactional [fixtureQuiz] ⟨[], []⟩ fixtureSubmissionCorrect).2
     fixtureQuiz (by rfl)⟩

lemma find?_eq_of_nodup {α : Type} (f : α → Nat) (l : List α) (x : α)
    (hnd : (l.map f).Nodup) (hx : x ∈ l) :
    l.find? (fun y => f y == f x) = some x := by
  induction l with
  | nil => cases hx
  | cons a t ih =>
    rw [List.map_cons, List.nodup_cons] at hnd
    rcases List.mem_cons.mp hx with rfl | hxt
    · exact List.find?_cons_of_pos t (beq_self_eq_true (f x))
    · have hne : (f a == f x) = false := by
        refine beq_eq_false_iff_ne.mpr fun he => ?_
        exact hnd.1 (he ▸ List.mem_map_of_mem f hxt)
      rw [List.find?_cons_of_neg t (by simp [hne])]
      exact ih hnd.2 hxt

lemma forall₂_exists_mem {α β : Type} {R : α → β → Prop} {l₁ : List α}
    {l₂ : List β} (h : List.Forall₂ R l₁ l₂) :
    ∀ a ∈ l₁, ∃ b ∈ l₂, R a b := by
  induction h with
  | nil => intro a ha; cases ha
  | cons hr _ ih =>
    intro x hx
    rcases List.mem_cons.mp hx with rfl | hx'
    · exact ⟨_, List.mem_cons_self _ _, hr⟩
    · obtain ⟨b, hb, hrb⟩ := ih x hx'
      exact ⟨b, List.mem_cons_of_mem _ hb, hrb⟩

/-- C1: for every persisted quiz and submission against it, the returned
percentage equals (correct-count / total_questions) × 100 rounded to two
decimal places (half to even, over the exact rational value), where
`total_questions` is the quiz's full question count; a quiz with 0
questions reports percentage 0; and a submission selecting the correct
option of every one of the N questions (over well-formed distinct ids)
scores N with percentage 100. -/
theorem scoring_percentage_formula
    (quizzes : List Quiz) (db : DbState) (submission : QuizSubmission)
    (quiz : Quiz)
    (hq : quizzes.find? (fun q => q.id == submission.quiz_id) = some quiz) :
    ∃ r : QuizResult,
      (submit_quiz_answers quizzes db false submission).2 = some r ∧
      r.total_questions = quiz.questions.length ∧
      r.percentage = round2 (if r.total_questions = 0 then 0
        else (r.score : ℚ) / (r.total_questions : ℚ) * 100) ∧
      (r.total_questions = 0 → r.percentage = 0) ∧
      ((quiz.questions.map Question.id).Nodup →
        (∀ q ∈ quiz.questions, (q.options.map QuestionOption.id).Nodup) →
        List.Forall₂ (fun (a : UserAnswerSubmission) (q : Question) =>
          a.question_id = q.id ∧
          ∃ opt ∈ q.options, opt.is_correct = true ∧
            a.selected_option_id = opt.id) submission.answers quiz.questions →
        r.score = quiz.questions.length ∧
        (quiz.questions ≠ [] → r.percentage = 100)) := by
  unfold submit_quiz_answers
  simp only [hq, Bool.false_eq_true, if_false]
  refine ⟨_, rfl, rfl, ?_, ?_, ?_⟩
  · show round2 _ = round2 _
    congr 1
    by_cases hlen : quiz.questions.isEmpty = true
    · have he : quiz.questions = [] := List.isEmpty_iff.mp hlen
      simp [he]
    · have hne : quiz.questions ≠ [] := fun he => hlen (List.isEmpty_iff.mpr he)
      have hl0 : quiz.questions.length ≠ 0 := fun h0 => hne (List.length_eq_zero.mp h0)
      rw [Bool.not_eq_true] at hlen
      simp [hlen, hl0]
  · intro h0
    have he : quiz.questions = [] :=
      List.length_eq_zero.mp h0
    show round2 _ = 0
    rw [he]
    norm_num [round2, roundHalfEven, ratFloor_eq_intFloor]
  · intro hnd1 hnd2 hfa
    have hallc : ∀ a ∈ submission.answers, answerIsCorrect quiz a = true := by
      intro a ha
      obtain ⟨q, hqmem, hid, opt, hoptmem, hcorr, hsel⟩ :=
        forall₂_exists_mem hfa a ha
      have hres : resolveAnswer quiz a = some (q, opt) := by
        unfold resolveAnswer
        simp only [hid, hsel,
          find?_eq_of_nodup Question.id quiz.questions q hnd1 hqmem,
          find?_eq_of_nodup QuestionOption.id q.options opt (hnd2 q hqmem) hoptmem]
      simp [answerIsCorrect, hres, hcorr]
    have hcnt : submission.answers.countP (answerIsCorrect quiz)
        = submission.answers.length := List.countP_eq_length.mpr hallc
    have hlen2 : submission.answers.length = quiz.questions.length := hfa.length_eq
    have hcc := foldl_processAnswer_correct_count quiz (db.attempts.length + 1)
      submission.answers ⟨0, [], []⟩
    constructor
    · show (List.foldl (processAnswer quiz (db.attempts.length + 1))
        { correct_count := 0, responses := [], correct_answers := [] }
        submission.answers).correct_count = quiz.questions.length
      rw [hcc]
      simp [hcnt, hlen2]
    · intro hne
      have hl0 : quiz.questions.length ≠ 0 := fun h0 => hne (List.length_eq_zero.mp h0)
      have hisE : quiz.questions.isEmpty = false := List.isEmpty_eq_false.mpr hne
      show round2 _ = 100
      rw [hisE]
      have hscore : (List.foldl (processAnswer quiz (db.attempts.length + 1))
          { correct_count := 0, responses := [], correct_answers := [] }
          submission.answers).correct_count = quiz.questions.length := by
        rw [hcc]
        simp [hcnt, hlen2]
      rw [hscore]
      simp only [Bool.not_false, if_true]
      rw [div_self (by exact_mod_cast hl0)]
      norm_num [round2, roundHalfEven, ratFloor_eq_intFloor]

/-- Witness for C1: the all-correct submission against the two-question
fixture quiz scores 2 of 2 with percentage 100. -/
theorem scoring_percentage_formula_witness :
    ∃ r : QuizResult,
      (submit_quiz_answers [fixtureQuiz] ⟨[], []⟩ false
        fixtureSubmissionCorrect).2 = some r ∧
      r.total_questions = fixtureQuiz.questions.length ∧
      r.score = fixtureQuiz.questions.length ∧
      r.percentage = 100 := by
  obtain ⟨r, h1, h2, _, _, h5⟩ :=
    scoring_percentage_formula [fixtureQuiz] ⟨[], []⟩ fixtureSubmissionCorrect
      fixtureQuiz (by rfl)
  obtain ⟨hs, hp⟩ := h5 (by decide) (by decide)
    (by
      refine List.Forall₂.cons ⟨rfl, ?_⟩
        (List.Forall₂.cons ⟨rfl, ?_⟩ List.Forall₂.nil)
      · exact ⟨⟨12, "2", "B", true⟩, by decide, rfl, rfl⟩
      · exact ⟨⟨21, "4", "A", true⟩, by decide, rfl, rfl⟩)
  exact ⟨r, h1, h2, hs, hp (by decide)⟩

lemma validQuestionRules_iff (q : GeneratedQuizQuestion) :
    validQuestionRules q = true ↔
      ((pyStrip q.question.toList).length ≠ 0 ∧
       q.options.length = settings.default_options_per_question ∧
       (q.options.map Prod.fst).toFinset = expected_letters ∧
       q.correct_answer ∈ q.options.map Prod.fst ∧
       ∀ kv ∈ q.options, (pyStrip kv.2.toList).length ≠ 0) := by
  unfold validQuestionRules
  split_ifs with h1 h2 h3 h4
  · constructor
    · intro h
      exact absurd h (by simp)
    · rintro ⟨hc, -⟩
      exact absurd (by simpa using h1) hc
  · constructor
    · intro h
      exact absurd h (by simp)
    · rintro ⟨-, hc, -⟩
      exact absurd hc (bne_iff_ne.mp h2)
  · constructor
    · intro h
      exact absurd h (by simp)
    · rintro ⟨-, -, hc, -⟩
      exact absurd hc (by simpa using h3)
  · constructor
    · intro h
      exact absurd h (by simp)
    · rintro ⟨-, -, -, hc, -⟩
      have h4' : (q.options.any fun kv => kv.1 == q.correct_answer) = false := by
        simpa using h4
      rw [List.any_eq_false] at h4'
      obtain ⟨kv, hkv, hfst⟩ := List.mem_map.mp hc
      exact h4' kv hkv (by simp [hfst])
  · have hc1 : (pyStrip q.question.toList).length ≠ 0 := by simpa using h1
    have hc2 : q.options.length = settings.default_options_per_question := by
      simpa using h2
    have hc3 : (q.options.map Prod.fst).toFinset = expected_letters := by
      simpa using h3
    have hc4 : q.correct_answer ∈ q.options.map Prod.fst := by
      have h4' : (q.options.any fun kv => kv.1 == q.correct_answer) = true := by
        simpa using h4
      obtain ⟨kv, hkv, hbeq⟩ := List.any_eq_true.mp h4'
      exact List.mem_map.mpr ⟨kv, hkv, eq_of_beq hbeq⟩
    rw [List.all_eq_true]
    constructor
    · intro h
      refine ⟨hc1, hc2, hc3, hc4, fun kv hkv => ?_⟩
      simpa using h kv hkv
    · rintro ⟨-, -, -, -, h5⟩ kv hkv
      simpa using h5 kv hkv

/-- C3: the business-rule validator rejects every candidate in which some
question's set of option labels is not exactly the canonical label set
`\x7bA, B, C, D\x7d` (missing, extra or substituted labels), or some question's
`correct_answer` is not among its present labels. -/
theorem validator_rejects_bad_labels
    (resp : GeminiQuizResponse) (n : Nat)
    (hbad : ∃ q ∈ resp.questions,
      (q.options.map Prod.fst).toFinset ≠ expected_letters ∨
      q.correct_answer ∉ q.options.map Prod.fst) :
    _validate_quiz_business_rules resp n = false := by
  rw [Bool.eq_false_iff]
  intro hacc
  obtain ⟨q, hqmem, hviol⟩ := hbad
  unfold _validate_quiz_business_rules at hacc
  by_cases hlen : (resp.questions.length != n) = true
  · rw [if_pos hlen] at hacc
    cases hacc
  · rw [if_neg hlen] at hacc
    have hq := (validQuestionRules_iff q).mp (List.all_eq_true.mp hacc q hqmem)
    rcases hviol with hviol | hviol
    · exact hviol hq.2.2.1
    · exact hviol hq.2.2.2.1

/-- Witness for C3: a candidate with labels A, B, C, E and one whose
correct answer E is not a present label are both rejected. -/
theorem validator_rejects_bad_labels_witness :
    _validate_quiz_business_rules badLabelCandidate 1 = false ∧
    _validate_quiz_business_rules badCorrectCandidate 1 = false :=
  ⟨validator_rejects_bad_labels badLabelCandidate 1
      ⟨{ question := "q?"
         options := [("A", "1"), ("B", "2"), ("C", "3"), ("E", "4")]
         correct_answer := "B" }, by decide, Or.inl (by decide)⟩,
   validator_rejects_bad_labels badCorrectCandidate 1
      ⟨{ question := "q?"
         options := [("A", "1"), ("B", "2"), ("C", "3"), ("D", "4")]
         correct_answer := "E" }, by decide, Or.inr (by decide)⟩⟩

lemma buildQuestions_length (idx : Nat) (qs : List GeneratedQuizQuestion) :
    (buildQuestions idx qs).length = qs.length := by
  induction qs generalizing idx with
  | nil => rfl
  | cons q rest ih => simp [buildQuestions, ih]

lemma buildQuestions_map_order (idx : Nat) (qs : List GeneratedQuizQuestion) :
    (buildQuestions idx qs).map Question.question_order
      = List.range' (idx + 1) qs.length := by
  induction qs generalizing idx with
  | nil => rfl
  | cons q rest ih =>
    rw [buildQuestions, List.map_cons, List.length_cons, List.range'_succ, ih]

lemma keys_nodup_of_valid (cq : GeneratedQuizQuestion)
    (h : validQuestionRules cq = true) : (cq.options.map Prod.fst).Nodup := by
  obtain ⟨-, hlen, hset, -, -⟩ := (validQuestionRules_iff cq).mp h
  have hcard : (cq.options.map Prod.fst).toFinset.card = 4 := by
    rw [hset]
    decide
  rw [List.card_toFinset] at hcard
  have hmaplen : (cq.options.map Prod.fst).length = 4 := by
    rw [List.length_map, hlen]
    rfl
  have heq : (cq.options.map Prod.fst).dedup = cq.options.map Prod.fst :=
    (List.dedup_sublist _).eq_of_length (by rw [hcard, hmaplen])
  rw [← heq]
  exact List.nodup_dedup _

lemma exactly_one_correct (cq : GeneratedQuizQuestion)
    (h : validQuestionRules cq = true) :
    ((buildOptions cq).filter (fun opt => opt.is_correct)).length = 1 := by
  obtain ⟨-, -, -, hmem, -⟩ := (validQuestionRules_iff cq).mp h
  have hnd := keys_nodup_of_valid cq h
  unfold buildOptions
  rw [List.filter_map, List.length_map, ← List.countP_eq_length_filter]
  have hcnt : (cq.options.countP
      ((fun (opt : QuestionOption) => opt.is_correct) ∘ fun kv =>
        { id := 0
          option_text := kv.2
          option_letter := kv.1
          is_correct := kv.1 == cq.correct_answer }))
      = List.count cq.correct_answer (cq.options.map Prod.fst) := by
    rw [List.count, List.countP_map]
    rfl
  rw [hcnt]
  exact List.count_eq_one_of_mem hnd hmem

lemma buildQuestions_forall₂_valid (idx : Nat) (qs : List GeneratedQuizQuestion)
    (hv : ∀ q ∈ qs, validQuestionRules q = true) :
    List.Forall₂ (fun (bq : Question) (cq : GeneratedQuizQuestion) =>
      bq.question_text = cq.question ∧
      bq.options.length = settings.default_options_per_question ∧
      List.Forall₂ (fun (opt : QuestionOption) (kv : String × String) =>
        opt.option_letter = kv.1 ∧ opt.option_text = kv.2 ∧
        (opt.is_correct = true ↔ kv.1 = cq.correct_answer)) bq.options cq.options ∧
      (bq.options.filter (fun opt => opt.is_correct)).length = 1)
      (buildQuestions idx qs) qs := by
  induction qs generalizing idx with
  | nil => exact List.Forall₂.nil
  | cons q rest ih =>
    have hq := hv q (List.mem_cons_self _ _)
    refine List.Forall₂.cons ⟨rfl, ?_, ?_, exactly_one_correct q hq⟩
      (ih (idx + 1) fun x hx => hv x (List.mem_cons_of_mem _ hx))
    · show (buildOptions q).length = _
      unfold buildOptions
      rw [List.length_map]
      exact ((validQuestionRules_iff q).mp hq).2.1
    · show List.Forall₂ _ (buildOptions q) q.options
      unfold buildOptions
      refine List.forall₂_map_left_iff.mpr (List.forall₂_same.mpr fun kv _ => ?_)
      exact ⟨rfl, rfl, by simp⟩

/-- C4: for every candidate accepted by the business-rule validator with N
questions, `_create_quiz_from_gemini_response` builds a quiz with exactly N
questions in candidate order carrying 1-based order indices 1..N, each with
exactly 4 options whose `is_correct` flag is true iff the option's label
equals that question's `correct_answer` — hence exactly one correct option
per question. -/
theorem build_from_accepted_candidate
    (resp : GeminiQuizResponse) (n : Nat)
    (hacc : _validate_quiz_business_rules resp n = true) :
    (_create_quiz_from_gemini_response resp).questions.length = n ∧
    (_create_quiz_from_gemini_response resp).questions.map Question.question_order
      = List.range' 1 n ∧
    List.Forall₂ (fun (bq : Question) (cq : GeneratedQuizQuestion) =>
      bq.question_text = cq.question ∧
      bq.options.length = settings.default_options_per_question ∧
      List.Forall₂ (fun (opt : QuestionOption) (kv : String × String) =>
        opt.option_letter = kv.1 ∧ opt.option_text = kv.2 ∧
        (opt.is_correct = true ↔ kv.1 = cq.correct_answer)) bq.options cq.options ∧
      (bq.options.filter (fun opt => opt.is_correct)).length = 1)
      (_create_quiz_from_gemini_response resp).questions resp.questions := by
  have hlen : resp.questions.length = n := by
    by_contra hne
    unfold _validate_quiz_business_rules at hacc
    rw [if_pos (bne_iff_ne.mpr hne)] at hacc
    cases hacc
  have hall : ∀ q ∈ resp.questions, validQuestionRules q = true := by
    unfold _validate_quiz_business_rules at hacc
    rw [if_neg (by simp [hlen])] at hacc
    exact List.all_eq_true.mp hacc
  refine ⟨?_, ?_, ?_⟩
  · show (buildQuestions 0 resp.questions).length = n
    rw [buildQuestions_length, hlen]
  · show (buildQuestions 0 resp.questions).map Question.question_order = _
    rw [buildQuestions_map_order, hlen]
  · exact buildQuestions_forall₂_valid 0 resp.questions hall

/-- Witness for C4 at an accepted two-question candidate. -/
theorem build_from_accepted_candidate_witness :
    _validate_quiz_business_rules goodCandidate 2 = true ∧
    ((_create_quiz_from_gemini_response goodCandidate).questions.length = 2 ∧
     (_create_quiz_from_gemini_response goodCandidate).questions.map
        Question.question_order = List.range' 1 2 ∧
     List.Forall₂ (fun (bq : Question) (cq : GeneratedQuizQuestion) =>
       bq.question_text = cq.question ∧
       bq.options.length = settings.default_options_per_question ∧
       List.Forall₂ (fun (opt : QuestionOption) (kv : String × String) =>
         opt.option_letter = kv.1 ∧ opt.option_text = kv.2 ∧
         (opt.is_correct = true ↔ kv.1 = cq.correct_answer)) bq.options cq.options ∧
       (bq.options.filter (fun opt => opt.is_correct)).length = 1)
       (_create_quiz_from_gemini_response goodCandidate).questions
       goodCandidate.questions) :=
  ⟨by decide, build_from_accepted_candidate goodCandidate 2 (by decide)⟩

/-- C7: when the model service is absent or returns Failure, the feedback
endpoint still answers `.ok` with exactly one explanation per mismatch, in
order, each carrying the mismatch's question id and containing the literal
user-selected label and text and the literal correct label and text. -/
theorem feedback_fallback_explanations
    (quizzes : List Quiz) (quiz_id : Nat) (quiz : Quiz)
    (service : Option (FeedbackRequest → Option FeedbackResponse))
    (payload : FeedbackRequest)
    (hq : quizzes.find? (fun q => q.id == quiz_id) = some quiz)
    (hfail : service = none ∨ ∃ f, service = some f ∧ f payload = none) :
    ∃ resp : FeedbackResponse,
      get_quiz_feedback quizzes quiz_id service payload = .ok resp ∧
      resp.items.length = payload.items.length ∧
      List.Forall₂ (fun (out : FeedbackItem) (i : FeedbackRequestItem) =>
        out.question_id = i.question_id ∧
        (∃ l r, out.explanation = l ++ i.user_selected ++ r) ∧
        (∃ l r, out.explanation = l ++ i.user_selected_text ++ r) ∧
        (∃ l r, out.explanation = l ++ i.correct_option ++ r) ∧
        (∃ l r, out.explanation = l ++ i.correct_text ++ r))
        resp.items payload.items := by
  have hfb : get_quiz_feedback quizzes quiz_id service payload
      = .ok ⟨payload.items.map fun i =>
          { question_id := i.question_id
            explanation := fallbackExplanation i }⟩ := by
    unfold get_quiz_feedback
    rcases hfail with rfl | ⟨f, rfl, hf⟩
    · simp [hq]
    · simp [hq, hf]
  refine ⟨_, hfb, by simp, ?_⟩
  show List.Forall₂ _ (payload.items.map fun i =>
    ({ question_id := i.question_id
       explanation := fallbackExplanation i } : FeedbackItem)) payload.items
  refine List.forall₂_map_left_iff.mpr (List.forall₂_same.mpr fun i _ => ?_)
  refine ⟨rfl, ⟨"You chose ", ". " ++ i.user_selected_text ++
      ". The correct answer is " ++ i.correct_option ++ ". " ++
      i.correct_text ++ ".", ?_⟩,
    ⟨"You chose " ++ i.user_selected ++ ". ", ". The correct answer is " ++
      i.correct_option ++ ". " ++ i.correct_text ++ ".", ?_⟩,
    ⟨"You chose " ++ i.user_selected ++ ". " ++ i.user_selected_text ++
      ". The correct answer is ", ". " ++ i.correct_text ++ ".", ?_⟩,
    ⟨"You chose " ++ i.user_selected ++ ". " ++ i.user_selected_text ++
      ". The correct answer is " ++ i.correct_option ++ ". ",
      ".", ?_⟩⟩ <;>
  · show fallbackExplanation i = _
    unfold fallbackExplanation
    simp [String.append_assoc]

/-- Witness for C7: one mismatch against the fixture quiz with the service
absent. -/
theorem feedback_fallback_explanations_witness :
    ∃ resp : FeedbackResponse,
      get_quiz_feedback [fixtureQuiz] 7 none fixtureFeedbackPayload = .ok resp ∧
      resp.items.length = fixtureFeedbackPayload.items.length ∧
      List.Forall₂ (fun (out : FeedbackItem) (i : FeedbackRequestItem) =>
        out.question_id = i.question_id ∧
        (∃ l r, out.explanation = l ++ i.user_selected ++ r) ∧
        (∃ l r, out.explanation = l ++ i.user_selected_text ++ r) ∧
        (∃ l r, out.explanation = l ++ i.correct_option ++ r) ∧
        (∃ l r, out.explanation = l ++ i.correct_text ++ r))
        resp.items fixtureFeedbackPayload.items :=
  feedback_fallback_explanations [fixtureQuiz] 7 fixtureQuiz none
    fixtureFeedbackPayload (by rfl) (Or.inl rfl)

/-- C9: topic validation accepts a topic iff it is non-empty after trimming
whitespace, its length is at most the configured maximum
(`settings.max_topic_length`, default 100), and its lowercase form contains
none of the denylist substrings. -/
theorem validate_topic_iff (topic : String) :
    validate_topic topic = true ↔
      (pyStrip topic.toList ≠ [] ∧
       topic.length ≤ settings.max_topic_length ∧
       ∀ kw ∈ inappropriate_keywords,
         ¬ ∃ l r, topic.toLower.toList = l ++ kw.toList ++ r) := by
  have hfirst : (topic.isEmpty || (pyStrip topic.toList).length == 0) = true
      ↔ pyStrip topic.toList = [] := by
    constructor
    · intro hx
      have hx' : topic.isEmpty = true ∨
          ((pyStrip topic.toList).length == 0) = true := by
        simpa using hx
      rcases hx' with hx | hx
      · have he : topic = "" := (String.isEmpty_iff _).mp hx
        rw [he]
        rfl
      · exact List.length_eq_zero.mp (by simpa using hx)
    · intro hx
      have hz : ((pyStrip topic.toList).length == 0) = true := by
        rw [hx]
        rfl
      rw [hz]
      simp
  unfold validate_topic
  by_cases hsplit : pyStrip topic.toList = []
  · rw [if_pos (hfirst.mpr hsplit)]
    constructor
    · intro h
      exact absurd h (by simp)
    · rintro ⟨hc, -⟩
      exact absurd hsplit hc
  · rw [if_neg fun hx => hsplit (hfirst.mp hx)]
    by_cases h2 : settings.max_topic_length < topic.length
    · rw [if_pos h2]
      constructor
      · intro h
        exact absurd h (by simp)
      · rintro ⟨-, hle, -⟩
        omega
    · rw [if_neg h2]
      rw [List.all_eq_true]
      constructor
      · intro hall
        refine ⟨hsplit, by omega, fun kw hkw hex => ?_⟩
        have hk := hall kw hkw
        rw [Bool.not_eq_true'] at hk
        have hc := (strContainsL_iff topic.toLower.toList kw.toList).mpr hex
        unfold strContains at hk
        rw [hk] at hc
        cases hc
      · rintro ⟨-, -, hkw⟩ kw hmem
        rw [Bool.not_eq_true']
        unfold strContains
        rw [Bool.eq_false_iff]
        intro hc
        exact hkw kw hmem ((strContainsL_iff _ _).mp hc)
